import Mathlib

/-!
# Verification of the `cre`/`kre` regex engine (src/cre.c, src/kre.c)

The two source files are byte-identical up to the `cre_`/`kre_` identifier prefix, so the
development embeds `src/cre.c` once; every statement holds verbatim for the `kre_*` names.

Shallow-embedding conventions:
* C `int` sizes/lengths that are provably nonnegative (`nfa_len`, `paths_len`, `paths_cap`,
  `buf_len`, `buf_cap`) are `Nat`; match/edge fields that use negative sentinels
  (`u`, `v`, `Ms`, `Me`, `nfa_start`) are `Int`.
* `bool*` state arrays are `List Bool`; the 256-entry `bool* set` of a node is `Nat → Bool`.
* `cre_sim_add_` recurses through epsilon edges with no cycle guard, so the C function may
  fail to terminate (and its asserts may abort); it is embedded with an explicit fuel
  parameter returning `Option`, where `none` covers both fuel exhaustion (nontermination)
  and assert failure.  A value `some r` means the C call returns normally with result `r`.
* `char` is embedded as a signed byte (`Int` in `[-128, 127]`), the default on the
  mainstream targets of this code; `charOfByte` is the implementation-defined conversion a
  caller performs when passing a byte value 0..255 to a `char` parameter.
* Reads of uninitialized `malloc` memory are modelled as zeroes; `realloc` is modelled as
  content-preserving in place.
* Unambiguous identifier slips in the source are embedded as the intended name:
  `cre_sim_reset(iter)` in `cre_sim_init` (line 278) reads `sim`, `pat->nfa_len` in
  `cre_sim_reset` (line 291) reads `sim->pat->nfa_len`, `s->nfa_len` in `cre_iter_feedc`
  (line 451) reads `s->pat->nfa_len`, and the `pat` member that `cre_iter_init` and
  `cre_iter_feedc` use but `cre_iter` does not declare is included as a field.
-/

/-- `enum cre_kind` (src/cre.c:81): the two node kinds. -/
inductive cre_kind where
  | cre_EPS : cre_kind
  | cre_SET : cre_kind
deriving DecidableEq

/-- `struct cre_node` (src/cre.c:93): kind, two outgoing edges (`-1` no edge, `-2` accept,
otherwise an index into the pattern's node array), and the 256-entry byte set used when
`kind == cre_SET`. -/
structure cre_node where
  kind : cre_kind
  u : Int
  v : Int
  set : Nat → Bool

/-- `cre_pat` (src/cre.c:111): the node arena (`nfa_len` is `nfa.length`), the start index,
and the original source text. -/
structure cre_pat where
  nfa : List cre_node
  nfa_start : Int
  src : String

/-- `cre_sim` (src/cre.c:132): the borrowed pattern and the two ping-pong state buffers.
`in` is a Lean keyword, hence the field name `in_`. -/
structure cre_sim where
  pat : cre_pat
  in_ : List Bool
  lastin : List Bool

/-- The read `n->set[c]` (src/cre.c:355) of the 256-entry byte set at a `char` index:
defined only for indices inside the array, `none` models the out-of-bounds access. -/
def setLookup (s : Nat → Bool) (c : Int) : Option Bool :=
  if 0 ≤ c ∧ c < 256 then some (s c.toNat) else none

/-- The implementation-defined value a byte 0..255 takes when passed through a (signed)
`char` parameter, as in `cre_sim_feedc(cre_sim* sim, char c)`. -/
def charOfByte (b : Nat) : Int :=
  if b < 128 then (b : Int) else (b : Int) - 256

/-- A write `arr[i] = x` into a `bool` array at an `int` index (in-range writes only;
out-of-range indices leave the list unchanged and are unreachable in the uses below). -/
def boolsSet (l : List Bool) (i : Int) (b : Bool) : List Bool :=
  if 0 ≤ i then l.set i.toNat b else l

/-- `cre_sim_reset` (src/cre.c:287-296): zero both buffers, then mark the raw start index
active.  Note: the C code performs no epsilon closure here and returns `void`. -/
def cre_sim_reset (sim : cre_sim) : cre_sim :=
  { sim with
    in_ := boolsSet (List.replicate sim.pat.nfa.length false) sim.pat.nfa_start true
    lastin := List.replicate sim.pat.nfa.length false }

/-- `cre_sim_init` (src/cre.c:271-279): allocate the two buffers (uninitialized) and reset.
The reset overwrites both buffers completely, so the fresh state is `cre_sim_reset` of
arbitrary buffer contents. -/
def cre_sim_init (pat : cre_pat) : cre_sim :=
  cre_sim_reset { pat := pat, in_ := [], lastin := [] }

/-- `cre_sim_add_` (src/cre.c:299-329): recursive epsilon-closure insertion.  `-1` adds
nothing, `-2` reports accept, an epsilon node recurses into both edges (with NO visited
marker — the fuel models the possible nontermination), a set node is marked active.
`none` = the C call does not return normally (infinite recursion or assert failure). -/
def cre_sim_add_ : Nat → cre_sim → Int → Option (cre_sim × Bool)
  | 0, _, _ => none
  | fuel+1, sim, i =>
    if i = -1 then some (sim, false)
    else if i = -2 then some (sim, true)
    else if i < 0 then none
    else
      (sim.pat.nfa.get? i.toNat).bind fun n =>
        match n.kind with
        | cre_kind.cre_EPS =>
          (cre_sim_add_ fuel sim n.u).bind fun x =>
            (cre_sim_add_ fuel x.1 n.v).bind fun y => some (y.1, x.2 || y.2)
        | cre_kind.cre_SET => some ({ sim with in_ := boolsSet sim.in_ i true }, false)

/-- One iteration of the node loop of `cre_sim_feedc` (src/cre.c:348-364): if node `i` was
active before the feed and its kind is `cre_SET`, look the fed char up in its byte set,
and on a hit follow both outgoing edges through `cre_sim_add_`. -/
def cre_sim_feed_step (fuel : Nat) (c : Int) (acc : cre_sim × Bool) (i : Nat) :
    Option (cre_sim × Bool) :=
  if acc.1.lastin.getD i false then
    (acc.1.pat.nfa.get? i).bind fun n =>
      (match n.kind with
       | cre_kind.cre_SET => setLookup n.set c
       | cre_kind.cre_EPS => some false).bind fun valid =>
        if valid then
          (cre_sim_add_ fuel acc.1 n.u).bind fun x =>
            (cre_sim_add_ fuel x.1 n.v).bind fun y => some (y.1, acc.2 || (x.2 || y.2))
        else some acc
  else some acc

/-- `cre_sim_feedc` (src/cre.c:331-367): swap the ping-pong buffers (`lastin` becomes the
pre-feed active set), clear the new active set, then run the node loop. -/
def cre_sim_feedc (fuel : Nat) (sim : cre_sim) (c : Int) : Option (cre_sim × Bool) :=
  let len := sim.pat.nfa.length
  (List.range len).foldlM (cre_sim_feed_step fuel c)
    ({ sim with in_ := List.replicate len false, lastin := sim.in_ }, false)

/-- `struct cre_iter_path` (src/cre.c:149): a candidate match attempt; `Ms`/`Me` use the
sentinel `-1` for absent, `Gs`/`Ge` are the (never written) group-offset arrays. -/
structure cre_iter_path where
  sim : cre_sim
  Ms : Int
  Me : Int
  Gs : List Int
  Ge : List Int

/-- `cre_iter` (src/cre.c:163): the path pool with its length/capacity and the input
buffer.  The `pat` field is the pattern member that `cre_iter_init`/`cre_iter_feedc` use
although the C struct omits its declaration (see the header note). -/
structure cre_iter where
  pat : cre_pat
  paths_len : Nat
  paths_cap : Nat
  paths : List cre_iter_path
  buf_len : Nat
  buf_cap : Nat
  buf : List Int

/-- Placeholder node for unreachable array-default reads. -/
def dummy_node : cre_node := ⟨cre_kind.cre_EPS, -1, -1, fun _ => false⟩

/-- Placeholder path for unreachable array-default reads. -/
def dummy_path : cre_iter_path := ⟨⟨⟨[], 0, ""⟩, [], []⟩, -1, -1, [], []⟩

/-- One freshly initialized pool slot, as produced by the grow branch of `cre_iter_feedc`
(src/cre.c:429-434): the slot's simulator is initialized (hence reset) and its `Gs`/`Ge`
arrays are allocated uninitialized (modelled as zeroes); `Ms`/`Me` stay uninitialized
until the slot is spawned (also modelled as zeroes). -/
def fresh_path (pat : cre_pat) : cre_iter_path :=
  ⟨cre_sim_init pat, 0, 0, List.replicate pat.nfa.length 0, List.replicate pat.nfa.length 0⟩

/-- `cre_iter_reset` (src/cre.c:399-404): zero the two length fields, free nothing. -/
def cre_iter_reset (it : cre_iter) : cre_iter :=
  { it with paths_len := 0, buf_len := 0 }

/-- `cre_iter_init` (src/cre.c:371-383): zero lengths/capacities, null pointers, reset. -/
def cre_iter_init (pat : cre_pat) : cre_iter :=
  cre_iter_reset
    { pat := pat, paths_len := 0, paths_cap := 0, paths := [], buf_len := 0, buf_cap := 0,
      buf := [] }

/-- The path loop of `cre_iter_feedc` (src/cre.c:408-472), one call per iteration of
`for (i = 0; i < iter->paths_len; ++i)`.  Faithful to the C control flow, including:
the spawn logic only runs inside this loop (so nothing happens while `paths_len = 0`);
the grow branch's inner initialization loop reuses and clobbers the outer `i` (leaving it
at the new capacity); the dangling `p` after `realloc` is read as slot `i` of the
(in-place) reallocated array; a dead path with `Me >= 0` falls into an empty branch (its
match is recorded nowhere and the path is not removed); `buf_len` is never advanced.
The fuel only bounds the loop (the C loop terminates; `none` from insufficient fuel or
from a non-returning `cre_sim_feedc` call). -/
def cre_iter_feedc_loop : Nat → cre_iter → Int → Nat → Bool → Option cre_iter
  | 0, _, _, _, _ => none
  | fuel+1, it, c, i, has_newpath =>
    if i < it.paths_len then
      let p0 := it.paths.getD i dummy_path
      let spawn : cre_iter × Nat × Bool :=
        if has_newpath = false ∧ p0.Ms < 0 then
          ({ it with paths := it.paths.set i { p0 with Ms := (it.buf_len : Int), Me := -1 } },
           i, true)
        else if has_newpath = false ∧ i = it.paths_len - 1 then
          let grown : cre_iter × Nat :=
            if it.paths_cap ≤ it.paths_len then
              let cap2 := it.paths_len * 2 + 4
              ({ it with paths_cap := cap2,
                         paths := it.paths.take it.paths_len ++
                                  List.replicate (cap2 - it.paths_len) (fresh_path it.pat) },
               cap2)
            else (it, i)
          let it2 := grown.1
          let p1 := it2.paths.getD it.paths_len dummy_path
          ({ it2 with
             paths := it2.paths.set it.paths_len { p1 with Ms := (it.buf_len : Int), Me := -1 },
             paths_len := it.paths_len + 1 },
           grown.2, true)
        else (it, i, has_newpath)
      let it3 := spawn.1
      let p := it3.paths.getD i dummy_path
      if 0 ≤ p.Ms then
        (cre_sim_feedc fuel p.sim c).bind fun fed =>
          let p2 := { p with sim := fed.1,
                             Me := if fed.2 then (it3.buf_len : Int) else p.Me }
          let has_instate := fed.1.in_.any (fun b => b)
          let step : cre_iter × cre_iter_path :=
            if has_instate = false then
              if 0 ≤ p2.Me then (it3, p2)
              else if i = it3.paths_len - 1 then
                ({ it3 with paths_len := it3.paths_len - 1 }, p2)
              else (it3, { p2 with Ms := -1 })
            else (it3, p2)
          cre_iter_feedc_loop fuel { step.1 with paths := step.1.paths.set i step.2 } c
            (spawn.2.1 + 1) spawn.2.2
      else
        cre_iter_feedc_loop fuel it3 c (spawn.2.1 + 1) spawn.2.2
    else some it

/-- `cre_iter_feedc` (src/cre.c:408-472): run the path loop from `i = 0`,
`has_newpath = false`.  The C function is declared `bool` but contains no return
statement, so no return value is modelled. -/
def cre_iter_feedc (fuel : Nat) (it : cre_iter) (c : Int) : Option cre_iter :=
  cre_iter_feedc_loop fuel it c 0 false

/-- `cre_pat_init` (src/cre.c:243-260).  `cre_parse_` is declared (line 240) but its
definition is not in src, so it is abstracted as a parameter giving its net effect:
the nodes it appends to `pat->nfa` and the start index it returns.  Whatever the parser
does, `cre_pat_init` unconditionally returns `NULL` ("no error", line 259). -/
def cre_pat_init (parse_ : String → List cre_node × Int) (src : String) :
    cre_pat × Option String :=
  let r := parse_ src
  ({ nfa := r.1, nfa_start := r.2, src := src }, none)

/-- The byte-match node for the literal `a` (`cre_SET` over the singleton byte set). -/
def nodeA : cre_node := ⟨cre_kind.cre_SET, -2, -1, fun b => b == 97⟩

/-- Modelled from the spec: `cre_parse_` is not in src; per §4.2 (Thompson construction)
the pattern `"a"` compiles to a single ByteMatch node whose dangling edge is patched to
Accept (`-2`). -/
def patA : cre_pat := ⟨[nodeA], 0, "a"⟩

/-- A simulator over `patA` with the byte-match node active (the state after
`cre_sim_reset`). -/
def simA : cre_sim := ⟨patA, [true], [false]⟩

/-- Modelled from the spec: per §4.2, alternation allocates an Epsilon split node pointing
at both branches' starts; `"a|b"` therefore compiles to two ByteMatch nodes and an
Epsilon split start node (index 2). -/
def patAltAB : cre_pat :=
  ⟨[⟨cre_kind.cre_SET, -2, -1, fun b => b == 97⟩,
    ⟨cre_kind.cre_SET, -2, -1, fun b => b == 98⟩,
    ⟨cre_kind.cre_EPS, 0, 1, fun _ => false⟩], 2, "a|b"⟩

/-- Modelled from the spec: per §4.2, `*` wraps a fragment with Epsilon back-edges, so
`"(a*)*"` produces an inner star node 1 and an outer star node 2 whose epsilon edges form
the cycle 1 → 2 → 1 (nested unbounded quantifiers). -/
def patStar : cre_pat :=
  ⟨[⟨cre_kind.cre_SET, 1, -1, fun b => b == 97⟩,
    ⟨cre_kind.cre_EPS, 0, 2, fun _ => false⟩,
    ⟨cre_kind.cre_EPS, 1, -2, fun _ => false⟩], 2, "(a*)*"⟩

/-- A simulator over `patStar` with the byte-match node 0 active. -/
def simStar : cre_sim := ⟨patStar, [true, false, false], [false, false, false]⟩

/-- A live path over `patA`: anchored at 0, best match end `Me = 0` already recorded,
its simulator with the byte-match node still active. -/
def slotLive : cre_iter_path := ⟨simA, 0, 0, [0], [0]⟩

/-- An initialized but not yet spawned pool slot over `patA`. -/
def slotIdle : cre_iter_path := ⟨cre_sim_init patA, 0, 0, [0], [0]⟩

/-- An iterator over `patA` with one live path (`slotLive`) and one spare pool slot. -/
def iterC2 : cre_iter := ⟨patA, 1, 2, [slotLive, slotIdle], 0, 0, []⟩

/-- C1: on a freshly created (or freshly reset) iterator `paths_len = 0`, so the path loop
of `cre_iter_feedc` — the only place a Path can be spawned — never executes: feeding a
byte at stream position 0 leaves the iterator completely unchanged and anchors no Path at
offset 0 (the byte is not even appended to the buffer). -/
theorem c1_fresh_iter_never_spawns (pat : cre_pat) (c : Int) (fuel : Nat) :
    cre_iter_feedc (fuel + 1) (cre_iter_init pat) c = some (cre_iter_init pat) ∧
    (cre_iter_init pat).paths_len = 0 :=
  ⟨rfl, rfl⟩

/-- C2: feeding `'b'` (98) to `iterC2` kills the live path `slotLive` (its active set
becomes empty) with `Me = 0 ≥ 0` recorded, yet afterwards the path is still present
(`paths_len = 1`, slot 0 keeps `Ms = 0`): the `Me >= 0` arm of the dead-path handling in
`cre_iter_feedc` (src/cre.c:457-458) is an empty branch, the match is recorded nowhere
(the `cre_iter` struct has no match collection at all), and the path is not discarded. -/
theorem c2_dead_match_path_kept :
    (cre_iter_feedc 5 iterC2 98).map
      (fun r => (r.paths_len, (r.paths.getD 0 dummy_path).Ms,
                 (r.paths.getD 0 dummy_path).Me, (r.paths.getD 0 dummy_path).sim.in_))
      = some (1, 0, 0, [false]) :=
  rfl

/-- C4: `cre_sim_reset` performs no epsilon closure: over the compiled `"a|b"` (start
node 2 is the Epsilon split), the post-reset active set is exactly the raw start index —
an Epsilon node — while the ByteMatch nodes 0 and 1, reachable from the start without
consuming a byte, are NOT active; and the function returns `void`, reporting nothing. -/
theorem c4_reset_marks_raw_start :
    (cre_sim_init patAltAB).in_ = [false, false, true] ∧
    (patAltAB.nfa.getD 2 dummy_node).kind = cre_kind.cre_EPS ∧
    (patAltAB.nfa.getD 0 dummy_node).kind = cre_kind.cre_SET :=
  ⟨rfl, rfl, rfl⟩

/-- C5: the invariant "no Epsilon node index is ever marked active" is violated directly
after `cre_sim_reset`: over the compiled `"a|b"` the Epsilon split node 2 is active. -/
theorem c5_eps_node_active_after_reset :
    (cre_sim_reset ⟨patAltAB, [], []⟩).in_.getD 2 false = true ∧
    (patAltAB.nfa.getD 2 dummy_node).kind = cre_kind.cre_EPS :=
  ⟨rfl, rfl⟩

/-- C7: `cre_pat_init` returns `NULL` ("no error") unconditionally — for every possible
behavior of the missing parser it reports success on the malformed source `"(a"`, so
no `ParseError` (and no failure offset) can ever reach the caller. -/
theorem c7_pat_init_no_error (parse_ : String → List cre_node × Int) :
    (cre_pat_init parse_ "(a").2 = none :=
  rfl

/-- C8: a byte value 128 arrives at `cre_sim_feedc`'s signed `char` parameter as `-128`,
and the byte-set lookup `n->set[c]` (src/cre.c:355) then indexes the 256-entry set out of
bounds: the feed does not return normally (undefined behavior in C, `none` here). -/
theorem c8_feedc_high_byte_fails :
    charOfByte 128 = -128 ∧ cre_sim_feedc 5 simA (charOfByte 128) = none :=
  ⟨rfl, rfl⟩

/-- Over `patStar` (the compiled `"(a*)*"`), `cre_sim_add_` never returns from either node
of the epsilon cycle 1 → 2 → 1, no matter how much fuel (stack) it is given: the closure
has no visited marker, so the recursion is infinite. -/
theorem patStar_add_cycle_none :
    ∀ (fuel : Nat) (a b : List Bool),
      cre_sim_add_ fuel ⟨patStar, a, b⟩ 1 = none ∧
      cre_sim_add_ fuel ⟨patStar, a, b⟩ 2 = none := by
  intro fuel
  induction fuel with
  | zero => exact fun a b => ⟨rfl, rfl⟩
  | succ f ih =>
    intro a b
    refine ⟨?_, ?_⟩
    · have e1 : cre_sim_add_ (f + 1) ⟨patStar, a, b⟩ 1
          = (cre_sim_add_ f ⟨patStar, a, b⟩ 0).bind
              (fun x => (cre_sim_add_ f x.1 2).bind fun y => some (y.1, x.2 || y.2)) := rfl
      cases f with
      | zero => rw [e1]; rfl
      | succ g =>
        have h0 : cre_sim_add_ (g + 1) ⟨patStar, a, b⟩ 0
            = some (⟨patStar, boolsSet a 0 true, b⟩, false) := rfl
        rw [e1, h0, Option.some_bind, (ih (boolsSet a 0 true) b).2, Option.none_bind]
    · have e2 : cre_sim_add_ (f + 1) ⟨patStar, a, b⟩ 2
          = (cre_sim_add_ f ⟨patStar, a, b⟩ 1).bind
              (fun x => (cre_sim_add_ f x.1 (-2)).bind fun y => some (y.1, x.2 || y.2)) := rfl
      rw [e2, (ih a b).1, Option.none_bind]

/-- C6: feeding `'a'` (97) to a simulator over the compiled `"(a*)*"` whose byte-match
node is active never terminates: for EVERY fuel bound the epsilon closure through the
cyclic star nodes fails to complete, because `cre_sim_add_` tracks no per-pass visited
marker.  (`cre_sim_reset` itself always terminates — it performs no closure at all.) -/
theorem c6_eps_cycle_never_terminates : ∀ fuel : Nat, cre_sim_feedc fuel simStar 97 = none := by
  intro fuel
  have e : cre_sim_feedc fuel simStar 97
      = (cre_sim_feed_step fuel 97
          ((⟨patStar, List.replicate 3 false, [true, false, false]⟩ : cre_sim), false) 0).bind
          (fun acc => [1, 2].foldlM (cre_sim_feed_step fuel 97) acc) := by
    rfl
  have estep : cre_sim_feed_step fuel 97
      ((⟨patStar, List.replicate 3 false, [true, false, false]⟩ : cre_sim), false) 0
      = (cre_sim_add_ fuel ⟨patStar, List.replicate 3 false, [true, false, false]⟩ 1).bind
          (fun x => (cre_sim_add_ fuel x.1 (-1)).bind
            fun y => some (y.1, false || (x.2 || y.2))) := rfl
  rw [e, estep, (patStar_add_cycle_none fuel _ _).1, Option.none_bind, Option.none_bind]

/-- Accept-reachability through epsilon edges: edge value `-2` reaches Accept, and an
in-range Epsilon node reaches Accept if one of its two outgoing edges does.  This is the
spec-side meaning of "following edges through epsilon-closure reaches Accept". -/
inductive EpsAccept (pat : cre_pat) : Int → Prop where
  | accept : EpsAccept pat (-2)
  | eps_u (i : Int) (n : cre_node) (hi : 0 ≤ i) (hn : pat.nfa.get? i.toNat = some n)
      (hk : n.kind = cre_kind.cre_EPS) (h : EpsAccept pat n.u) : EpsAccept pat i
  | eps_v (i : Int) (n : cre_node) (hi : 0 ≤ i) (hn : pat.nfa.get? i.toNat = some n)
      (hk : n.kind = cre_kind.cre_EPS) (h : EpsAccept pat n.v) : EpsAccept pat i

/-- `cre_sim_add_` writes only the `in_` buffer: the pattern and `lastin` come through
every returning call unchanged. -/
theorem cre_sim_add_pres : ∀ (fuel : Nat) (sim : cre_sim) (i : Int) (s2 : cre_sim) (r : Bool),
    cre_sim_add_ fuel sim i = some (s2, r) → s2.pat = sim.pat ∧ s2.lastin = sim.lastin := by
  intro fuel
  induction fuel with
  | zero => intro sim i s2 r h; exact absurd h (by simp [cre_sim_add_])
  | succ f ih =>
    intro sim i s2 r h
    simp only [cre_sim_add_] at h
    split at h
    · simp only [Option.some.injEq, Prod.mk.injEq] at h
      rw [← h.1]
      exact ⟨rfl, rfl⟩
    · split at h
      · simp only [Option.some.injEq, Prod.mk.injEq] at h
        rw [← h.1]
        exact ⟨rfl, rfl⟩
      · split at h
        · exact absurd h (by simp)
        · rw [Option.bind_eq_some] at h
          obtain ⟨n, hn, h⟩ := h
          cases hk : n.kind
          case cre_EPS =>
            rw [hk] at h
            simp only at h
            rw [Option.bind_eq_some] at h
            obtain ⟨x, hx, h⟩ := h
            rw [Option.bind_eq_some] at h
            obtain ⟨y, hy, h⟩ := h
            simp only [Option.some.injEq, Prod.mk.injEq] at h
            have p1 := ih sim n.u x.1 x.2 hx
            have p2 := ih x.1 n.v y.1 y.2 hy
            rw [← h.1]
            exact ⟨p2.1.trans p1.1, p2.2.trans p1.2⟩
          case cre_SET =>
            rw [hk] at h
            simp only [Option.some.injEq, Prod.mk.injEq] at h
            rw [← h.1]
            exact ⟨rfl, rfl⟩

/-- Soundness of the closure result flag: if a `cre_sim_add_` call returns `true`, the
started edge reaches Accept through epsilon nodes. -/
theorem cre_sim_add_true_EpsAccept :
    ∀ (fuel : Nat) (sim : cre_sim) (i : Int) (s2 : cre_sim) (r : Bool),
      cre_sim_add_ fuel sim i = some (s2, r) → r = true → EpsAccept sim.pat i := by
  intro fuel
  induction fuel with
  | zero => intro sim i s2 r h; exact absurd h (by simp [cre_sim_add_])
  | succ f ih =>
    intro sim i s2 r h hr
    simp only [cre_sim_add_] at h
    split at h
    case isTrue hi =>
      simp only [Option.some.injEq, Prod.mk.injEq] at h
      rw [← h.2] at hr
      exact absurd hr (by simp)
    case isFalse hi1 =>
      split at h
      case isTrue hi =>
        rw [hi]
        exact EpsAccept.accept
      case isFalse hi2 =>
        split at h
        case isTrue => exact absurd h (by simp)
        case isFalse hi3 =>
          have hge : (0 : Int) ≤ i := by omega
          rw [Option.bind_eq_some] at h
          obtain ⟨n, hn, h⟩ := h
          cases hk : n.kind
          case cre_EPS =>
            rw [hk] at h
            simp only at h
            rw [Option.bind_eq_some] at h
            obtain ⟨x, hx, h⟩ := h
            rw [Option.bind_eq_some] at h
            obtain ⟨y, hy, h⟩ := h
            simp only [Option.some.injEq, Prod.mk.injEq] at h
            rw [← h.2] at hr
            rcases Bool.or_eq_true_iff.mp hr with hx2 | hy2
            · exact EpsAccept.eps_u i n hge hn hk (ih sim n.u x.1 x.2 hx hx2)
            · have hpx := (cre_sim_add_pres f sim n.u x.1 x.2 hx).1
              have := ih x.1 n.v y.1 y.2 hy hy2
              rw [hpx] at this
              exact EpsAccept.eps_v i n hge hn hk this
          case cre_SET =>
            rw [hk] at h
            simp only [Option.some.injEq, Prod.mk.injEq] at h
            rw [← h.2] at hr
            exact absurd hr (by simp)

/-- Completeness of the closure result flag: if the started edge reaches Accept through
epsilon nodes, every RETURNING `cre_sim_add_` call on it reports `true` (a call may also
fail to return; then there is nothing to show). -/
theorem EpsAccept_add_true :
    ∀ (pat : cre_pat) (j : Int), EpsAccept pat j →
      ∀ (fuel : Nat) (sim : cre_sim) (s2 : cre_sim) (r : Bool), sim.pat = pat →
        cre_sim_add_ fuel sim j = some (s2, r) → r = true := by
  intro pat j hj
  induction hj with
  | accept =>
    intro fuel sim s2 r hp h
    cases fuel with
    | zero => exact absurd h (by simp [cre_sim_add_])
    | succ f =>
      rw [show cre_sim_add_ (f + 1) sim (-2) = some (sim, true) from rfl] at h
      simp only [Option.some.injEq, Prod.mk.injEq] at h
      exact h.2.symm
  | eps_u i n hi hn hk hsub ih =>
    intro fuel sim s2 r hp h
    cases fuel with
    | zero => exact absurd h (by simp [cre_sim_add_])
    | succ f =>
      simp only [cre_sim_add_] at h
      split at h
      case isTrue hc => omega
      case isFalse =>
        split at h
        case isTrue hc => omega
        case isFalse =>
          split at h
          case isTrue hc => omega
          case isFalse =>
            rw [Option.bind_eq_some] at h
            obtain ⟨n2, hn2, h⟩ := h
            rw [hp] at hn2
            rw [hn] at hn2
            have hnn : n2 = n := (Option.some.inj hn2).symm
            rw [hnn] at h
            rw [hk] at h
            simp only at h
            rw [Option.bind_eq_some] at h
            obtain ⟨x, hx, h⟩ := h
            rw [Option.bind_eq_some] at h
            obtain ⟨y, hy, h⟩ := h
            simp only [Option.some.injEq, Prod.mk.injEq] at h
            have hx2 : x.2 = true := ih f sim x.1 x.2 hp hx
            rw [← h.2, hx2]
            rfl
  | eps_v i n hi hn hk hsub ih =>
    intro fuel sim s2 r hp h
    cases fuel with
    | zero => exact absurd h (by simp [cre_sim_add_])
    | succ f =>
      simp only [cre_sim_add_] at h
      split at h
      case isTrue hc => omega
      case isFalse =>
        split at h
        case isTrue hc => omega
        case isFalse =>
          split at h
          case isTrue hc => omega
          case isFalse =>
            rw [Option.bind_eq_some] at h
            obtain ⟨n2, hn2, h⟩ := h
            rw [hp] at hn2
            rw [hn] at hn2
            have hnn : n2 = n := (Option.some.inj hn2).symm
            rw [hnn] at h
            rw [hk] at h
            simp only at h
            rw [Option.bind_eq_some] at h
            obtain ⟨x, hx, h⟩ := h
            rw [Option.bind_eq_some] at h
            obtain ⟨y, hy, h⟩ := h
            simp only [Option.some.injEq, Prod.mk.injEq] at h
            have hpx : x.1.pat = pat := ((cre_sim_add_pres f sim n.u x.1 x.2 hx).1).trans hp
            have hy2 : y.2 = true := ih f x.1 y.1 y.2 hpx hy
            rw [← h.2, hy2, Bool.or_true]

/-- Node `i` was active before the feed, is a ByteMatch node whose byte set contains the
fed char, and one of its two outgoing edges reaches Accept through epsilon-closure. -/
def AcceptVia (pat : cre_pat) (act : List Bool) (c : Int) (i : Nat) : Prop :=
  act.getD i false = true ∧
  ∃ n, pat.nfa.get? i = some n ∧ n.kind = cre_kind.cre_SET ∧
    setLookup n.set c = some true ∧ (EpsAccept pat n.u ∨ EpsAccept pat n.v)

/-- One node-loop iteration of `cre_sim_feedc`: it never touches the pattern or `lastin`,
and its accumulated result flag becomes true exactly when it already was or node `i`
satisfies `AcceptVia`. -/
theorem cre_sim_feed_step_spec (fuel : Nat) (c : Int) (acc acc2 : cre_sim × Bool) (i : Nat)
    (h : cre_sim_feed_step fuel c acc i = some acc2) :
    acc2.1.pat = acc.1.pat ∧ acc2.1.lastin = acc.1.lastin ∧
    (acc2.2 = true ↔ (acc.2 = true ∨ AcceptVia acc.1.pat acc.1.lastin c i)) := by
  unfold cre_sim_feed_step at h
  split at h
  case isFalse hact =>
    simp only [Option.some.injEq] at h
    rw [← h]
    refine ⟨rfl, rfl, ?_⟩
    constructor
    · exact fun hr => Or.inl hr
    · rintro (hr | ⟨ha, _⟩)
      · exact hr
      · rw [ha] at hact
        exact absurd rfl hact
  case isTrue hact =>
    rw [Option.bind_eq_some] at h
    obtain ⟨n, hn, h⟩ := h
    rw [Option.bind_eq_some] at h
    obtain ⟨valid, hv, h⟩ := h
    cases hk : n.kind
    case cre_EPS =>
      rw [hk] at hv
      simp only [Option.some.injEq] at hv
      rw [← hv] at h
      simp only [Bool.false_eq_true, if_false, Option.some.injEq] at h
      rw [← h]
      refine ⟨rfl, rfl, ?_⟩
      constructor
      · exact fun hr => Or.inl hr
      · rintro (hr | ⟨_, n2, hn2, hk2, _⟩)
        · exact hr
        · rw [hn] at hn2
          have hnn : n = n2 := Option.some.inj hn2
          rw [← hnn, hk] at hk2
          exact absurd hk2 (by simp)
    case cre_SET =>
      rw [hk] at hv
      replace hv : setLookup n.set c = some valid := hv
      cases valid with
      | false =>
        simp only [Bool.false_eq_true, if_false, Option.some.injEq] at h
        rw [← h]
        refine ⟨rfl, rfl, ?_⟩
        constructor
        · exact fun hr => Or.inl hr
        · rintro (hr | ⟨_, n2, hn2, _, hv2, _⟩)
          · exact hr
          · rw [hn] at hn2
            rw [← (Option.some.inj hn2)] at hv2
            rw [hv] at hv2
            exact absurd (Option.some.inj hv2) (by simp)
      | true =>
        simp only [if_true] at h
        rw [Option.bind_eq_some] at h
        obtain ⟨x, hx, h⟩ := h
        rw [Option.bind_eq_some] at h
        obtain ⟨y, hy, h⟩ := h
        simp only [Option.some.injEq] at h
        have px := cre_sim_add_pres fuel acc.1 n.u x.1 x.2 hx
        have py := cre_sim_add_pres fuel x.1 n.v y.1 y.2 hy
        rw [← h]
        refine ⟨py.1.trans px.1, py.2.trans px.2, ?_⟩
        constructor
        · intro hr
          simp only [Bool.or_eq_true] at hr
          rcases hr with hr | hr | hr
          · exact Or.inl hr
          · exact Or.inr ⟨hact, n, hn, hk, hv, Or.inl
              (cre_sim_add_true_EpsAccept fuel acc.1 n.u x.1 x.2 hx hr)⟩
          · have := cre_sim_add_true_EpsAccept fuel x.1 n.v y.1 y.2 hy hr
            rw [px.1] at this
            exact Or.inr ⟨hact, n, hn, hk, hv, Or.inr this⟩
        · rintro (hr | ⟨_, n2, hn2, _, _, hacc⟩)
          · simp [hr]
          · rw [hn] at hn2
            rw [← (Option.some.inj hn2)] at hacc
            rcases hacc with hacc | hacc
            · rw [EpsAccept_add_true acc.1.pat n.u hacc fuel acc.1 x.1 x.2 rfl hx]
              simp
            · rw [EpsAccept_add_true acc.1.pat n.v hacc fuel x.1 y.1 y.2 px.1 hy]
              simp

/-- The whole node loop of `cre_sim_feedc`: the result flag is true exactly when some
visited node satisfies `AcceptVia`. -/
theorem cre_sim_feed_fold_spec :
    ∀ (l : List Nat) (fuel : Nat) (c : Int) (acc acc2 : cre_sim × Bool),
      List.foldlM (cre_sim_feed_step fuel c) acc l = some acc2 →
      acc2.1.pat = acc.1.pat ∧ acc2.1.lastin = acc.1.lastin ∧
      (acc2.2 = true ↔ (acc.2 = true ∨ ∃ i ∈ l, AcceptVia acc.1.pat acc.1.lastin c i)) := by
  intro l
  induction l with
  | nil =>
    intro fuel c acc acc2 h
    simp only [List.foldlM_nil] at h
    have hh : acc = acc2 := Option.some.inj h
    rw [← hh]
    simp
  | cons a l ih =>
    intro fuel c acc acc2 h
    rw [List.foldlM_cons] at h
    obtain ⟨mid, hmid, hrest⟩ := Option.bind_eq_some.mp h
    have hstep := cre_sim_feed_step_spec fuel c acc mid a hmid
    have hfold := ih fuel c mid acc2 hrest
    refine ⟨hfold.1.trans hstep.1, hfold.2.1.trans hstep.2.1, ?_⟩
    rw [hfold.2.2, hstep.2.2]
    rw [hstep.1, hstep.2.1]
    rw [List.exists_mem_cons_iff]
    tauto

/-- C3: whenever `cre_sim_feedc` returns, it returns `true` if and only if some node
active before the call is a ByteMatch node whose byte set contains the fed char and one
of whose two outgoing edges reaches Accept through epsilon-closure during this step. -/
theorem c3_feedc_accept_iff (fuel : Nat) (sim : cre_sim) (c : Int) (sim2 : cre_sim)
    (res : Bool) (h : cre_sim_feedc fuel sim c = some (sim2, res)) :
    res = true ↔ ∃ i : Nat, i < sim.pat.nfa.length ∧ AcceptVia sim.pat sim.in_ c i := by
  unfold cre_sim_feedc at h
  have hs := cre_sim_feed_fold_spec (List.range sim.pat.nfa.length) fuel c
    ({ sim with in_ := List.replicate sim.pat.nfa.length false, lastin := sim.in_ }, false)
    (sim2, res) h
  rw [show ((sim2, res) : cre_sim × Bool).2 = res from rfl] at hs
  have := hs.2.2
  simp only [Bool.false_eq_true, false_or, List.mem_range] at this
  exact this.trans (by constructor <;> (rintro ⟨i, h1, h2⟩; exact ⟨i, h1, h2⟩))

/-- Witness for C3 at a concrete input: over `patA` with the byte-match node active,
feeding `'a'` (97) returns normally with result `true`, and the accept condition holds
at node 0. -/
theorem c3_feedc_accept_iff_witness :
    cre_sim_feedc 1 simA 97 = some (⟨patA, [false], [true]⟩, true) ∧
    (true = true ↔ ∃ i : Nat, i < patA.nfa.length ∧ AcceptVia patA [true] 97 i) :=
  ⟨rfl, c3_feedc_accept_iff 1 simA 97 ⟨patA, [false], [true]⟩ true rfl⟩

/-- N successive `cre_sim_feedc` calls (each discarding the returned match flag);
`none` as soon as one call fails to return. -/
def runSimFeeds (fuel : Nat) (s : cre_sim) (ops : List Int) : Option cre_sim :=
  ops.foldlM (fun t c => (cre_sim_feedc fuel t c).map Prod.fst) s

/-- N successive `cre_iter_feedc` calls; `none` as soon as one fails to return. -/
def runIterFeeds (fuel : Nat) (it : cre_iter) (ops : List Int) : Option cre_iter :=
  ops.foldlM (fun t c => cre_iter_feedc fuel t c) it

/-- The observable part of an iterator: its pattern, the two lengths, and the live
prefixes of the path pool and the byte buffer (pool slots at or beyond `paths_len` and
buffer bytes beyond `buf_len` are dead storage). -/
def iterObs (it : cre_iter) : cre_pat × Nat × Nat × List cre_iter_path × List Int :=
  (it.pat, it.paths_len, it.buf_len, it.paths.take it.paths_len, it.buf.take it.buf_len)

/-- `cre_sim_feedc` never changes which pattern the simulator runs over. -/
theorem cre_sim_feedc_pat (fuel : Nat) (s : cre_sim) (c : Int) (x : cre_sim × Bool)
    (h : cre_sim_feedc fuel s c = some x) : x.1.pat = s.pat := by
  unfold cre_sim_feedc at h
  exact (cre_sim_feed_fold_spec _ fuel c _ _ h).1

/-- Any number of feeds never changes which pattern the simulator runs over. -/
theorem runSimFeeds_pat : ∀ (ops : List Int) (fuel : Nat) (s s2 : cre_sim),
    runSimFeeds fuel s ops = some s2 → s2.pat = s.pat := by
  intro ops
  induction ops with
  | nil =>
    intro fuel s s2 h
    unfold runSimFeeds at h
    simp only [List.foldlM_nil] at h
    rw [← Option.some.inj h]
  | cons c ops ih =>
    intro fuel s s2 h
    unfold runSimFeeds at h
    rw [List.foldlM_cons] at h
    obtain ⟨mid, hmid, hrest⟩ := Option.bind_eq_some.mp h
    obtain ⟨pr, hpr, hmid2⟩ := Option.map_eq_some'.mp hmid
    have h1 : mid.pat = s.pat := by
      rw [← hmid2]
      exact cre_sim_feedc_pat fuel s c pr hpr
    have h2 : s2.pat = mid.pat := ih fuel mid s2 hrest
    exact h2.trans h1

/-- The post-reset simulator state depends only on the pattern: reset overwrites both
state buffers completely. -/
theorem cre_sim_reset_pat_only (s t : cre_sim) (h : s.pat = t.pat) :
    cre_sim_reset s = cre_sim_reset t := by
  unfold cre_sim_reset
  rw [h]

/-- The fuel-exhausted base case of the embedded path loop. -/
theorem cre_iter_feedc_zero_fuel (it : cre_iter) (c : Int) : cre_iter_feedc 0 it c = none :=
  rfl

/-- With no paths, `cre_iter_feedc`'s loop body never runs: the call returns at once with
the iterator unchanged (this is why a fresh or reset iterator never makes progress). -/
theorem cre_iter_feedc_len0 (f : Nat) (it : cre_iter) (c : Int) (h : it.paths_len = 0) :
    cre_iter_feedc (f + 1) it c = some it := by
  show cre_iter_feedc_loop (f + 1) it c 0 false = some it
  unfold cre_iter_feedc_loop
  rw [h]
  simp

/-- From a path-free iterator, any number of returning feeds leaves the state exactly as
it was. -/
theorem runIter_len0 : ∀ (ops : List Int) (fuel : Nat) (it it2 : cre_iter),
    it.paths_len = 0 → runIterFeeds fuel it ops = some it2 → it2 = it := by
  intro ops
  induction ops with
  | nil =>
    intro fuel it it2 h0 h
    unfold runIterFeeds at h
    simp only [List.foldlM_nil] at h
    exact (Option.some.inj h).symm
  | cons c ops ih =>
    intro fuel it it2 h0 h
    unfold runIterFeeds at h
    rw [List.foldlM_cons] at h
    obtain ⟨mid, hmid, hrest⟩ := Option.bind_eq_some.mp h
    cases fuel with
    | zero => exact absurd hmid (by rw [cre_iter_feedc_zero_fuel]; simp)
    | succ f =>
      rw [cre_iter_feedc_len0 f it c h0] at hmid
      have hm : mid = it := (Option.some.inj hmid).symm
      rw [hm] at hrest
      exact ih (f + 1) it it2 h0 hrest

/-- Two observably equal path-free iterators stay observably equal under any sequence of
feeds. -/
theorem runIter_obs_eq : ∀ (ops : List Int) (fuel : Nat) (s1 s2 : cre_iter),
    s1.paths_len = 0 → s2.paths_len = 0 → iterObs s1 = iterObs s2 →
    (runIterFeeds fuel s1 ops).map iterObs = (runIterFeeds fuel s2 ops).map iterObs := by
  intro ops
  induction ops with
  | nil =>
    intro fuel s1 s2 h1 h2 hobs
    unfold runIterFeeds
    simp only [List.foldlM_nil]
    simpa using hobs
  | cons c ops ih =>
    intro fuel s1 s2 h1 h2 hobs
    unfold runIterFeeds
    rw [List.foldlM_cons, List.foldlM_cons]
    cases fuel with
    | zero =>
      rw [cre_iter_feedc_zero_fuel, cre_iter_feedc_zero_fuel]
    | succ f =>
      rw [cre_iter_feedc_len0 f s1 c h1, cre_iter_feedc_len0 f s2 c h2]
      exact ih (f + 1) s1 s2 h1 h2 hobs

/-- C9: `reset`, any number of feeds, then `reset` again is indistinguishable from fresh
construction.  Simulator: the second reset yields literally the `cre_sim_init` state of
the same pattern.  Iterator: after the second reset, every subsequent sequence of feed
calls produces observably identical results to a freshly constructed iterator. -/
theorem c9_reset_restores_fresh :
    (∀ (s : cre_sim) (fuel : Nat) (ops : List Int) (s2 : cre_sim),
       runSimFeeds fuel (cre_sim_reset s) ops = some s2 →
       cre_sim_reset s2 = cre_sim_init s.pat) ∧
    (∀ (it : cre_iter) (fuel : Nat) (ops : List Int) (it2 : cre_iter),
       runIterFeeds fuel (cre_iter_reset it) ops = some it2 →
       ∀ (fuel2 : Nat) (ops2 : List Int),
         (runIterFeeds fuel2 (cre_iter_reset it2) ops2).map iterObs
           = (runIterFeeds fuel2 (cre_iter_init it.pat) ops2).map iterObs) := by
  constructor
  · intro s fuel ops s2 h
    have hp : s2.pat = s.pat := runSimFeeds_pat ops fuel (cre_sim_reset s) s2 h
    exact cre_sim_reset_pat_only s2 ⟨s.pat, [], []⟩ hp
  · intro it fuel ops it2 h fuel2 ops2
    have h2 : it2 = cre_iter_reset it := runIter_len0 ops fuel (cre_iter_reset it) it2 rfl h
    apply runIter_obs_eq
    · rw [h2]; rfl
    · rfl
    · rw [h2]
      rfl

/-- Witness for C9 at concrete inputs: over `patA`, reset-feed-reset of `simA` equals the
fresh simulator, and reset-feed-reset of `iterC2` behaves like the fresh iterator. -/
theorem c9_reset_restores_fresh_witness :
    cre_sim_reset ⟨patA, [false], [true]⟩ = cre_sim_init patA ∧
    (runIterFeeds 1 (cre_iter_reset ⟨patA, 0, 2, [slotLive, slotIdle], 0, 0, []⟩) [97]).map
        iterObs
      = (runIterFeeds 1 (cre_iter_init patA) [97]).map iterObs :=
  ⟨c9_reset_restores_fresh.1 simA 2 [97] ⟨patA, [false], [true]⟩ rfl,
   c9_reset_restores_fresh.2 iterC2 1 [98] ⟨patA, 0, 2, [slotLive, slotIdle], 0, 0, []⟩ rfl
     1 [97]⟩

/-- C10: `cre_iter_reset` writes exactly the two length fields and leaves every other
field — the pattern, both capacities, the whole path pool (with every slot's simulator
and `Gs`/`Ge` contents), and the byte buffer — unchanged; nothing is freed or
reallocated. -/
theorem c10_iter_reset_frame (it : cre_iter) :
    (cre_iter_reset it).paths_len = 0 ∧ (cre_iter_reset it).buf_len = 0 ∧
    (cre_iter_reset it).pat = it.pat ∧
    (cre_iter_reset it).paths_cap = it.paths_cap ∧
    (cre_iter_reset it).paths = it.paths ∧
    (cre_iter_reset it).buf_cap = it.buf_cap ∧
    (cre_iter_reset it).buf = it.buf :=
  ⟨rfl, rfl, rfl, rfl, rfl, rfl, rfl⟩
